import Mathlib

/-!
Shallow embedding of the canvas card-rendering engine in
`src/assets/js/visual-generator.js` (class `VisualGenerator`), together with
proofs about the specification's testable properties.

JavaScript strings are sequences of UTF-16 code units; `String.length`,
`slice`, and regexes (the source uses no `u` flag) all operate on code units.
We therefore embed a JS string as `List Nat` of UTF-16 code units (`JStr`),
with `jsStr` converting a Lean string literal to that representation.

Canvas text measurement (`ctx.measureText(s).width`) is modelled by an
arbitrary per-code-unit width function `cw : Nat → Nat`, summed over the
string; this is the "deterministic font metrics" assumption the source code
itself relies on.
-/

namespace VisualGen

/-- A JavaScript string: a list of UTF-16 code units. -/
abbrev JStr := List Nat

/-- UTF-16 encoding of one Unicode scalar value. -/
def charUnits (c : Char) : List Nat :=
  let n := c.toNat
  if n < 0x10000 then [n]
  else [0xD800 + (n - 0x10000) / 0x400, 0xDC00 + (n - 0x10000) % 0x400]

/-- Convert a Lean string literal to its JS (UTF-16 code unit) representation. -/
def jsStr (s : String) : JStr := s.data.flatMap charUnits

/-- JS `\s` / `String.prototype.trim` whitespace, on code units. -/
def isWsUnit (u : Nat) : Bool :=
  (u = 9) || (u = 10) || (u = 11) || (u = 12) || (u = 13) || (u = 32) ||
  (u = 0xA0) || (u = 0x1680) || (0x2000 ≤ u && u ≤ 0x200A) ||
  (u = 0x2028) || (u = 0x2029) || (u = 0x202F) || (u = 0x205F) ||
  (u = 0x3000) || (u = 0xFEFF)

/-- JS `/[A-Za-z0-9]/` on a code unit. -/
def isLatinUnit (u : Nat) : Bool :=
  (48 ≤ u && u ≤ 57) || (65 ≤ u && u ≤ 90) || (97 ≤ u && u ≤ 122)

/-- Leading-whitespace strip (JS `trimStart` / regex `^\s*` consumption). -/
def trimStartJ (l : JStr) : JStr := l.dropWhile isWsUnit

/-- Trailing-whitespace strip (JS `trimEnd` / regex `\s+$` removal). -/
def trimEndJ (l : JStr) : JStr := ((l.reverse).dropWhile isWsUnit).reverse

/-- JS `String.prototype.trim`. -/
def trimJ (l : JStr) : JStr := trimEndJ (trimStartJ l)

/-- JS `String.prototype.toLowerCase` on one code unit (ASCII and Latin-1
letters; the engine's tags are ASCII/CJK and CJK has no case). -/
def lowerUnit (u : Nat) : Nat :=
  if 65 ≤ u ∧ u ≤ 90 then u + 32
  else if 0xC0 ≤ u ∧ u ≤ 0xDE ∧ u ≠ 0xD7 then u + 32
  else u

/-- JS `toLowerCase` on a string. -/
def jsToLower (l : JStr) : JStr := l.map lowerUnit

/-! ## mergeTags (visual-generator.js lines 605–619) -/

/-- The body of `pushTag` inside `mergeTags`:
`String(t || '').trim().replace(/^#/, '')`. -/
def cleanTag (t : JStr) : JStr :=
  let t := trimJ t
  match t with
  | 35 :: rest => rest
  | _ => t

/-- One step of the `forEach(pushTag)` loop in `mergeTags`: state is
(`seen` lower-cased keys, `merged` accumulator). -/
def pushTagStep (st : List JStr × List JStr) (t : JStr) : List JStr × List JStr :=
  let tag := cleanTag t
  if tag.isEmpty then st
  else
    let key := jsToLower tag
    if st.1.contains key then st
    else (st.1 ++ [key], st.2 ++ [tag])

/-- `mergeTags(primaryTags, secondaryTags)`: case-insensitive first-seen
de-duplication of the cleaned tags, then `slice(0, 10)`. -/
def mergeTags (primaryTags secondaryTags : List JStr) : List JStr :=
  (((primaryTags ++ secondaryTags).foldl pushTagStep ([], [])).2).take 10

/-- Reference (specification-side) first-occurrence de-duplication by
lower-cased key, used to characterise `mergeTags`. -/
def dedupByKey (seen : List JStr) : List JStr → List JStr
  | [] => []
  | t :: ts =>
    if seen.contains (jsToLower t) then dedupByKey seen ts
    else t :: dedupByKey (jsToLower t :: seen) ts

lemma contains_true_iff (l : List JStr) (k : JStr) : l.contains k = true ↔ k ∈ l := by
  simp

lemma dedupByKey_congr (L : List JStr) : ∀ S S' : List JStr,
    (∀ k, k ∈ S ↔ k ∈ S') →
    dedupByKey S L = dedupByKey S' L := by
  induction L with
  | nil => intro S S' _; rfl
  | cons t ts ih =>
    intro S S' h
    simp only [dedupByKey]
    by_cases hm : jsToLower t ∈ S'
    · rw [if_pos ((contains_true_iff _ _).2 ((h _).2 hm)),
        if_pos ((contains_true_iff _ _).2 hm)]
      exact ih _ _ h
    · rw [if_neg (fun hc => hm ((h _).1 ((contains_true_iff _ _).1 hc))),
        if_neg (fun hc => hm ((contains_true_iff _ _).1 hc))]
      refine congrArg _ (ih _ _ ?_)
      intro k
      simp only [List.mem_cons, h k]

lemma foldl_pushTag_eq (L : List JStr) : ∀ (S M : List JStr),
    (L.foldl pushTagStep (S, M)).2
      = M ++ dedupByKey S ((L.map cleanTag).filter (fun t => !t.isEmpty)) := by
  induction L with
  | nil => intro S M; simp [dedupByKey]
  | cons t ts ih =>
    intro S M
    simp only [List.foldl_cons, pushTagStep, List.map_cons, List.filter_cons]
    by_cases he : (cleanTag t).isEmpty
    · simp [he, ih]
    · simp only [he, Bool.not_false, if_true]
      by_cases hm : jsToLower (cleanTag t) ∈ S
      · have hc : S.contains (jsToLower (cleanTag t)) = true :=
          (contains_true_iff _ _).2 hm
        simp only [hc, if_true, dedupByKey]
        exact ih S M
      · have hc : S.contains (jsToLower (cleanTag t)) = false := by
          simpa using hm
        simp only [hc, Bool.false_eq_true, if_false, dedupByKey]
        rw [ih (S ++ [jsToLower (cleanTag t)]) (M ++ [cleanTag t]),
          dedupByKey_congr _ (S ++ [jsToLower (cleanTag t)])
            (jsToLower (cleanTag t) :: S)
            (by intro k; simp [List.mem_append, List.mem_cons, or_comm])]
        simp

lemma mergeTags_eq_spec (a b : List JStr) :
    mergeTags a b
      = (dedupByKey [] (((a ++ b).map cleanTag).filter (fun t => !t.isEmpty))).take 10 := by
  unfold mergeTags
  rw [foldl_pushTag_eq (a ++ b) [] []]
  simp

lemma dedupByKey_sublist (L : List JStr) : ∀ S, (dedupByKey S L).Sublist L := by
  induction L with
  | nil => intro S; simp [dedupByKey]
  | cons t ts ih =>
    intro S
    simp only [dedupByKey]
    by_cases hm : S.contains (jsToLower t) = true
    · simp only [hm, if_true]
      exact (ih S).cons t
    · simp only [hm, Bool.false_eq_true, if_false]
      exact (ih _).cons₂ t

lemma dedupByKey_keys_spec (L : List JStr) : ∀ S,
    ((dedupByKey S L).map jsToLower).Nodup ∧
    ∀ k ∈ (dedupByKey S L).map jsToLower, ¬ (S.contains k = true) := by
  induction L with
  | nil => intro S; simp [dedupByKey]
  | cons t ts ih =>
    intro S
    simp only [dedupByKey]
    by_cases hm : S.contains (jsToLower t) = true
    · simp only [hm, if_true]
      exact ih S
    · simp only [hm, Bool.false_eq_true, if_false, List.map_cons]
      obtain ⟨hnd, hks⟩ := ih (jsToLower t :: S)
      refine ⟨List.nodup_cons.2 ⟨fun hmem => ?_, hnd⟩, ?_⟩
      · exact hks _ hmem ((contains_true_iff _ _).2 (List.mem_cons_self _ _))
      · intro k hk hSk
        rcases List.mem_cons.1 hk with h | h
        · subst h; exact absurd hSk hm
        · exact hks k h ((contains_true_iff _ _).2
            (List.mem_cons_of_mem _ ((contains_true_iff _ _).1 hSk)))

/-! ## Output resolution table (visual-generator.js lines 1599–1623) -/

/-- Output pixel dimensions. -/
structure Dim where
  width : Nat
  height : Nat
deriving DecidableEq, Repr

/-- The `standard` quality row of the `presets` table. -/
def presetsStandard (a : String) : Option Dim :=
  if a = "9:16" then some ⟨540, 960⟩
  else if a = "1:1" then some ⟨540, 540⟩
  else if a = "16:9" then some ⟨960, 540⟩
  else if a = "4:5" then some ⟨720, 900⟩
  else none

/-- The `high` quality row of the `presets` table. -/
def presetsHigh (a : String) : Option Dim :=
  if a = "9:16" then some ⟨1080, 1920⟩
  else if a = "1:1" then some ⟨1080, 1080⟩
  else if a = "16:9" then some ⟨1920, 1080⟩
  else if a = "4:5" then some ⟨1080, 1350⟩
  else none

/-- The `ultra` quality row of the `presets` table. -/
def presetsUltra (a : String) : Option Dim :=
  if a = "9:16" then some ⟨1440, 2560⟩
  else if a = "1:1" then some ⟨1440, 1440⟩
  else if a = "16:9" then some ⟨2560, 1440⟩
  else if a = "4:5" then some ⟨1440, 1800⟩
  else none

/-- `presets[quality]` object lookup. -/
def presetsRow (q : String) : Option (String → Option Dim) :=
  if q = "standard" then some presetsStandard
  else if q = "high" then some presetsHigh
  else if q = "ultra" then some presetsUltra
  else none

/-- `getOutputDimensions(aspectRatio, quality)`:
`const qualitySet = presets[quality] || presets.high;`
`return qualitySet[aspectRatio] || qualitySet['9:16'];`.
`canvasToImageData` reports exactly these dimensions on the artifact (via
`_renderInfo.output` set by `prepareCanvas` from the same options). -/
def getOutputDimensions (a q : String) : Dim :=
  let qs := (presetsRow q).getD presetsHigh
  match qs a with
  | some d => d
  | none =>
    match qs "9:16" with
    | some d => d
    | none => ⟨0, 0⟩

/-- C6: `mergeTags(["ai","AI","life"], ["life","news"])` returns exactly
`["ai","life","news"]`; and for every pair of input tag lists the merged
result is case-insensitively deduplicated (lower-cased keys are pairwise
distinct), keeps first-seen order (it equals the first-occurrence
de-duplication of the cleaned inputs, and is a sublist of them), and is
truncated to at most 10 entries. -/
theorem c6_mergeTags_dedup :
    mergeTags [jsStr "ai", jsStr "AI", jsStr "life"] [jsStr "life", jsStr "news"]
      = [jsStr "ai", jsStr "life", jsStr "news"]
    ∧ ∀ a b : List JStr,
        (mergeTags a b).length ≤ 10
        ∧ ((mergeTags a b).map jsToLower).Nodup
        ∧ (mergeTags a b).Sublist (((a ++ b).map cleanTag).filter (fun t => !t.isEmpty))
        ∧ mergeTags a b
            = (dedupByKey [] (((a ++ b).map cleanTag).filter (fun t => !t.isEmpty))).take 10 := by
  refine ⟨by decide, fun a b => ?_⟩
  have hspec := mergeTags_eq_spec a b
  refine ⟨?_, ?_, ?_, hspec⟩
  · rw [hspec]; exact List.length_take_le _ _
  · rw [hspec]
    exact ((dedupByKey_keys_spec _ []).1).sublist
      ((List.take_sublist _ _).map jsToLower)
  · rw [hspec]
    exact (List.take_sublist _ _).trans (dedupByKey_sublist _ [])

/-- C7: the output pixel dimensions are a fixed function of
(aspect, quality): `9:16` at `high` gives 1080 by 1920, and each of the
other eleven combinations gives its fixed pair from the `presets` table in
`getOutputDimensions`; `canvasToImageData` reports exactly these values on
the returned artifact. -/
theorem c7_output_resolution_table :
    getOutputDimensions "9:16" "high" = ⟨1080, 1920⟩
    ∧ getOutputDimensions "1:1" "high" = ⟨1080, 1080⟩
    ∧ getOutputDimensions "16:9" "high" = ⟨1920, 1080⟩
    ∧ getOutputDimensions "4:5" "high" = ⟨1080, 1350⟩
    ∧ getOutputDimensions "9:16" "standard" = ⟨540, 960⟩
    ∧ getOutputDimensions "1:1" "standard" = ⟨540, 540⟩
    ∧ getOutputDimensions "16:9" "standard" = ⟨960, 540⟩
    ∧ getOutputDimensions "4:5" "standard" = ⟨720, 900⟩
    ∧ getOutputDimensions "9:16" "ultra" = ⟨1440, 2560⟩
    ∧ getOutputDimensions "1:1" "ultra" = ⟨1440, 1440⟩
    ∧ getOutputDimensions "16:9" "ultra" = ⟨2560, 1440⟩
    ∧ getOutputDimensions "4:5" "ultra" = ⟨1440, 1800⟩ := by
  repeat refine ⟨rfl, ?_⟩
  rfl

/-! ## Template and style lookup (visual-generator.js lines 119–235, 291–361) -/

/-- One entry of the `cardTemplates` table. -/
structure TemplateConfig where
  background : String
  primaryColor : String
  secondaryColor : String
  textColor : String
  accentColor : String
  panelLayout : String
deriving DecidableEq, Repr

/-- The static `cardTemplates` table built by `loadCardTemplates`. -/
def cardTemplates (i : String) : Option TemplateConfig :=
  if i = "xiaohongshu-lifestyle" then
    some ⟨"linear-gradient(135deg, #FFF1F2, #FFE4E6, #FFD6E0)", "#FF2742", "#FFF5F6", "#111827", "#FB7185", "lifestyle"⟩
  else if i = "xiaohongshu-knowledge" then
    some ⟨"linear-gradient(135deg, #EFF6FF, #E0F2FE, #DBEAFE)", "#2563EB", "#F0F9FF", "#0F172A", "#38BDF8", "knowledge"⟩
  else if i = "xiaohongshu-fashion" then
    some ⟨"linear-gradient(135deg, #FDF2F8, #FAE8FF, #F5D0FE)", "#DB2777", "#FDF4FF", "#111827", "#A855F7", "fashion"⟩
  else if i = "xiaohongshu-food" then
    some ⟨"linear-gradient(135deg, #FFF7ED, #FFEDD5, #FED7AA)", "#EA580C", "#FFF7ED", "#7C2D12", "#FB923C", "food"⟩
  else if i = "xiaohongshu-travel" then
    some ⟨"linear-gradient(135deg, #ECFEFF, #DCFCE7, #CCFBF1)", "#059669", "#F0FDF4", "#064E3B", "#06B6D4", "travel"⟩
  else if i = "xiaohongshu-product" then
    some ⟨"linear-gradient(135deg, #FFFBEB, #FEF3C7, #FDE68A)", "#B45309", "#FFFBEB", "#78350F", "#F59E0B", "product"⟩
  else if i = "xiaohongshu-fitness" then
    some ⟨"linear-gradient(135deg, #F0FDF4, #DCFCE7, #E0F2FE)", "#16A34A", "#F0FDF4", "#052E16", "#22C55E", "fitness"⟩
  else if i = "xiaohongshu-minimalist" then
    some ⟨"linear-gradient(135deg, #F8FAFC, #EEF2F7, #E2E8F0)", "#334155", "#F8FAFC", "#0F172A", "#94A3B8", "minimalist"⟩
  else if i = "xiaohongshu-tech-premium" then
    some ⟨"linear-gradient(135deg, #EDE9FE, #DDE8FF, #D4E6FF)", "#6366F1", "#F5F3FF", "#312E81", "#8B5CF6", "tech"⟩
  else if i = "xiaohongshu-data-showcase" then
    some ⟨"linear-gradient(135deg, #EEF2FF, #E0E7FF, #D6DEFF)", "#4F46E5", "#EEF2FF", "#1E1B4B", "#6366F1", "data"⟩
  else if i = "xiaohongshu-tutorial-card" then
    some ⟨"linear-gradient(135deg, #E6FFFB, #D9FDF4, #CCFBF1)", "#0F766E", "#F0FDFA", "#134E4A", "#14B8A6", "tutorial"⟩
  else none

/-- The `categoryFallback` map inside `getTemplateConfig`. -/
def categoryFallback (c : String) : Option String :=
  if c = "lifestyle" then some "xiaohongshu-lifestyle"
  else if c = "education" then some "xiaohongshu-knowledge"
  else if c = "fashion" then some "xiaohongshu-fashion"
  else if c = "food" then some "xiaohongshu-food"
  else if c = "travel" then some "xiaohongshu-travel"
  else if c = "shopping" then some "xiaohongshu-product"
  else if c = "fitness" then some "xiaohongshu-fitness"
  else if c = "minimalist" then some "xiaohongshu-minimalist"
  else if c = "technology" then some "xiaohongshu-tech-premium"
  else none

/-- The caller-supplied template descriptor; both fields may be absent
(JS `undefined`), and the whole object may be absent (`template?.id`). -/
structure TemplateRef where
  tid : Option String
  category : Option String
deriving DecidableEq, Repr

/-- `getTemplateConfig(template)`: exact-id lookup first (a falsy empty id
is skipped, like in JS), then category fallback, then the hardcoded
`xiaohongshu-lifestyle` base. -/
def getTemplateConfig (template : Option TemplateRef) : Option TemplateConfig :=
  let templateId := template.bind (·.tid)
  let exact : Option TemplateConfig :=
    match templateId with
    | some i => if i = "" then none else cardTemplates i
    | none => none
  match exact with
  | some c => some c
  | none =>
    let fallbackId : String :=
      match template.bind (·.category) with
      | some c => (categoryFallback c).getD "xiaohongshu-lifestyle"
      | none => "xiaohongshu-lifestyle"
    match cardTemplates fallbackId with
    | some c => some c
    | none => cardTemplates "xiaohongshu-lifestyle"

/-- One entry of the `profiles` table in `getStyleProfile`. -/
structure StyleProfile where
  key : String
  backgroundMode : String
  textureNoise : Nat
  contentPanelOpacity : ℚ
  titlePanelOpacityStart : ℚ
  titlePanelOpacityEnd : ℚ
  titleWeight : Nat
  bodyFontSize : Nat
  lineHeight : Nat
  tagMode : String
  decorationLevel : String
  topBarHeight : Nat
  iconSize : Nat
  watermarkOpacity : ℚ
deriving DecidableEq, Repr

/-- The `illustration` profile, also the fallback default. -/
def illustrationProfile : StyleProfile :=
  ⟨"illustration", "soft", 2, 0.92, 0.96, 0.9, 800, 18, 30, "filled", "subtle", 4, 22, 0.035⟩

/-- The `profiles` table in `getStyleProfile`. -/
def styleProfiles (name : String) : Option StyleProfile :=
  if name = "realistic" then
    some ⟨"realistic", "soft", 2, 0.9, 0.92, 0.84, 600, 17, 27, "outline", "subtle", 5, 20, 0.04⟩
  else if name = "illustration" then some illustrationProfile
  else if name = "minimalist" then
    some ⟨"minimalist", "minimal", 0, 0.96, 0.96, 0.92, 600, 16, 30, "outline", "none", 3, 18, 0.03⟩
  else if name = "artistic" then
    some ⟨"artistic", "artistic", 6, 0.76, 0.86, 0.72, 700, 18, 29, "filled", "rich", 10, 26, 0.05⟩
  else none

/-- `getStyleProfile(imageStyle = 'illustration')`: table lookup with the
`illustration` profile as default for an absent or unknown name. -/
def getStyleProfile (imageStyle : Option String) : StyleProfile :=
  let name := imageStyle.getD "illustration"
  (styleProfiles name).getD illustrationProfile

lemma categoryFallback_valid (c fid : String) (h : categoryFallback c = some fid) :
    (cardTemplates fid).isSome = true := by
  unfold categoryFallback at h
  split_ifs at h <;> simp_all <;> subst h <;> decide

/-- C8: the template-config and style-profile lookups always return a
defined configuration and never fail: an unknown (or falsy-empty) template
id falls back to the category-based default; when the category is also
unknown (or absent) the hardcoded `xiaohongshu-lifestyle` base template is
used; and an unknown style name resolves to the `illustration` profile. -/
theorem c8_lookup_fallbacks :
    (∀ t : Option TemplateRef, (getTemplateConfig t).isSome = true)
    ∧ (∀ (t : Option TemplateRef) (c fid : String),
        (∀ i, t.bind (·.tid) = some i → cardTemplates i = none ∨ i = "") →
        t.bind (·.category) = some c →
        categoryFallback c = some fid →
        getTemplateConfig t = cardTemplates fid)
    ∧ (∀ t : Option TemplateRef,
        (∀ i, t.bind (·.tid) = some i → cardTemplates i = none ∨ i = "") →
        (∀ c, t.bind (·.category) = some c → categoryFallback c = none) →
        getTemplateConfig t = cardTemplates "xiaohongshu-lifestyle")
    ∧ (∀ s : String, styleProfiles s = none →
        getStyleProfile (some s) = illustrationProfile) := by
  have hexact : ∀ (t : Option TemplateRef),
      (∀ i, t.bind (·.tid) = some i → cardTemplates i = none ∨ i = "") →
      (match t.bind (·.tid) with
       | some i => if i = "" then none else cardTemplates i
       | none => (none : Option TemplateConfig)) = none := by
    intro t h
    cases htid : t.bind (·.tid) with
    | none => rfl
    | some i =>
      rcases h i htid with hc | hc
      · by_cases he : i = "" <;> simp [he, hc]
      · simp [hc]
  refine ⟨?_, ?_, ?_, ?_⟩
  · intro t
    unfold getTemplateConfig
    cases hex : (match t.bind (·.tid) with
       | some i => if i = "" then none else cardTemplates i
       | none => (none : Option TemplateConfig)) with
    | some c => simp [hex]
    | none =>
      simp only [hex]
      cases hcat : t.bind (·.category) with
      | none => decide
      | some c =>
        simp only [hcat]
        cases hfb : categoryFallback c with
        | none => simp [hfb]; decide
        | some fid =>
          simp only [hfb, Option.getD_some]
          have := categoryFallback_valid c fid hfb
          cases hct : cardTemplates fid with
          | some d => simp [hct]
          | none => rw [hct] at this; simp at this
  · intro t c fid hid hcat hfb
    unfold getTemplateConfig
    dsimp only
    rw [hexact t hid]
    simp only [hcat, hfb, Option.getD_some]
    have := categoryFallback_valid c fid hfb
    cases hct : cardTemplates fid with
    | some d => simp [hct]
    | none => rw [hct] at this; simp at this
  · intro t hid hcat
    unfold getTemplateConfig
    dsimp only
    rw [hexact t hid]
    cases hc : t.bind (·.category) with
    | none => rfl
    | some c =>
      simp only [hc, hcat c hc, Option.getD_none]
      decide
  · intro s hs
    unfold getStyleProfile
    simp [hs]

/-- Witness for C8 at concrete inputs: the unknown id `"zzz"` with
category `"education"` resolves to the knowledge template; an unknown id
and category resolve to the lifestyle base; the unknown style name
`"vaporwave"` resolves to the illustration profile. -/
theorem c8_lookup_fallbacks_witness :
    getTemplateConfig (some ⟨some "zzz", some "education"⟩)
      = cardTemplates "xiaohongshu-knowledge"
    ∧ getTemplateConfig (some ⟨some "zzz", some "mystery"⟩)
      = cardTemplates "xiaohongshu-lifestyle"
    ∧ getStyleProfile (some "vaporwave") = illustrationProfile := by
  refine ⟨?_, ?_, ?_⟩
  · exact c8_lookup_fallbacks.2.1 (some ⟨some "zzz", some "education"⟩)
      "education" "xiaohongshu-knowledge"
      (by intro i hi; left; simp at hi; rw [← hi]; decide)
      (by decide) (by decide)
  · exact c8_lookup_fallbacks.2.2.1 (some ⟨some "zzz", some "mystery"⟩)
      (by intro i hi; left; simp at hi; rw [← hi]; decide)
      (by intro c hc; simp at hc; rw [← hc]; decide)
  · exact c8_lookup_fallbacks.2.2.2 "vaporwave" (by decide)

/-! ## Concurrency guard of generateCard (visual-generator.js lines 240–286)

`generateCard` checks `this.isGenerating` and throws the busy error *before*
its `try` block (so the rejection does not touch the flag of the in-flight
render), sets the flag, runs the render body (whose awaits are the only
interleaving points), and clears the flag in `finally` on success or
internal failure.  We model an engine instance with two observable calls
and a scheduler choosing which call advances at each interleaving point. -/

/-- The busy error message thrown by the guard. -/
def busyMessage : String := "正在生成中，请稍候"

/-- Lifecycle of one `generateCard` call: not yet issued, running with `k`
remaining segments between awaits, settled successfully, rejected by the
busy guard, or settled by an internal error (caught and re-thrown). -/
inductive CallPhase where
  | idle : CallPhase
  | running : Nat → CallPhase
  | completed : CallPhase
  | rejected : String → CallPhase
  | errored : CallPhase
deriving DecidableEq, Repr

/-- Whether a call currently holds the render body. -/
def CallPhase.isRunning : CallPhase → Bool
  | .running _ => true
  | _ => false

/-- An engine instance with its `isGenerating` flag and two calls. -/
structure Engine where
  isGenerating : Bool
  callA : CallPhase
  callB : CallPhase
deriving DecidableEq, Repr

/-- Advance one call (the synchronous stretch up to its next await):
an idle call runs the guard (`if (this.isGenerating) throw busy` before the
`try`, so the flag is untouched on rejection; otherwise `isGenerating =
true` and the body starts); a running call executes one segment; the last
segment resolves the promise and the `finally` clears the flag; settled
calls do nothing. -/
def advanceCall (n : Nat) (ph : CallPhase) (flag : Bool) : CallPhase × Bool :=
  match ph with
  | .idle => if flag then (.rejected busyMessage, flag) else (.running n, true)
  | .running k => if k = 0 then (.completed, false) else (.running (k - 1), flag)
  | p => (p, flag)

/-- An internal failure of a running call: the error propagates out of the
`try`, and `finally` still clears `isGenerating`; a non-running call is
unaffected. -/
def abortCall (ph : CallPhase) (flag : Bool) : CallPhase × Bool :=
  match ph with
  | .running _ => (.errored, false)
  | p => (p, flag)

/-- Scheduler events: advance call A or B, or crash the running segment of
call A or B. -/
inductive Ev where
  | stepA : Ev
  | stepB : Ev
  | crashA : Ev
  | crashB : Ev
deriving DecidableEq, Repr

/-- One scheduler step on the engine. -/
def engineStep (n : Nat) (e : Engine) : Ev → Engine
  | .stepA => let (p, f) := advanceCall n e.callA e.isGenerating
              { e with callA := p, isGenerating := f }
  | .stepB => let (p, f) := advanceCall n e.callB e.isGenerating
              { e with callB := p, isGenerating := f }
  | .crashA => let (p, f) := abortCall e.callA e.isGenerating
               { e with callA := p, isGenerating := f }
  | .crashB => let (p, f) := abortCall e.callB e.isGenerating
               { e with callB := p, isGenerating := f }

/-- Run a whole schedule of interleaving choices. -/
def engineRun (n : Nat) (e : Engine) (evs : List Ev) : Engine :=
  evs.foldl (engineStep n) e

/-- A fresh engine instance. -/
def engineInit : Engine := ⟨false, .idle, .idle⟩

/-- The state invariant of the guard: `isGenerating` is set exactly while
some call is running, and never are both calls running. -/
def EngineInv (e : Engine) : Prop :=
  (e.isGenerating = (e.callA.isRunning || e.callB.isRunning))
  ∧ ¬(e.callA.isRunning = true ∧ e.callB.isRunning = true)

lemma engineStep_inv (n : Nat) (e : Engine) (ev : Ev) (h : EngineInv e) :
    EngineInv (engineStep n e ev) := by
  obtain ⟨flag, cA, cB⟩ := e
  obtain ⟨hf, hx⟩ := h
  cases ev <;> cases flag <;> cases cA <;> cases cB <;>
      simp_all [engineStep, advanceCall, abortCall, EngineInv,
        CallPhase.isRunning] <;>
    (try split) <;>
    simp_all [CallPhase.isRunning]

lemma engineRun_inv (n : Nat) (evs : List Ev) :
    ∀ e : Engine, EngineInv e → EngineInv (engineRun n e evs) := by
  induction evs with
  | nil => intro e h; exact h
  | cons ev evs ih =>
    intro e h
    exact ih _ (engineStep_inv n e ev h)

/-- C5: the concurrency guard of `generateCard`.
(1) The invariant (flag set iff a call is running, never two running calls)
holds initially and is preserved by every scheduler step, so it holds in
every reachable engine state.
(2) Busy rejection: if call A is in flight and call B is issued, B fails
immediately with the busy error, and neither the flag nor call A's state is
touched, so A's render is unaffected.
(3) The in-flight call still completes: from any state where call A is
running with `k` segments left, `k + 1` further A-steps settle A as
`completed` (its artifact is returned), regardless of B having been
rejected.
(4) After any call settles (success or failure), no call is running, hence
by the invariant the flag is clear and a newly issued call is accepted. -/
theorem c5_concurrency_guard (n : Nat) :
    (EngineInv engineInit
      ∧ ∀ (e : Engine) (ev : Ev), EngineInv e → EngineInv (engineStep n e ev))
    ∧ (∀ e : Engine, e.callA.isRunning = true → e.callB = .idle → EngineInv e →
        (engineStep n e .stepB).callB = .rejected busyMessage
        ∧ (engineStep n e .stepB).callA = e.callA
        ∧ (engineStep n e .stepB).isGenerating = e.isGenerating)
    ∧ (∀ (e : Engine) (k : Nat), e.callA = .running k →
        (engineRun n e (List.replicate (k + 1) .stepA)).callA = .completed)
    ∧ (∀ e : Engine, EngineInv e →
        e.callA.isRunning = false → e.callB.isRunning = false →
        e.callB = .idle →
        (engineStep n e .stepB).callB = .running n
        ∧ (engineStep n e .stepB).isGenerating = true) := by
  refine ⟨⟨⟨rfl, by simp [engineInit, CallPhase.isRunning]⟩, engineStep_inv n⟩,
    ?_, ?_, ?_⟩
  · intro e hA hB hinv
    have hflag : e.isGenerating = true := by
      rw [hinv.1, hA]; rfl
    refine ⟨?_, ?_, ?_⟩ <;> simp [engineStep, hB, advanceCall, hflag]
  · intro e k
    induction k generalizing e with
    | zero =>
      intro hA
      simp [engineRun, engineStep, hA, advanceCall]
    | succ k ih =>
      intro hA
      have : engineRun n e (List.replicate (k + 1 + 1) .stepA)
          = engineRun n (engineStep n e .stepA) (List.replicate (k + 1) .stepA) := by
        simp [engineRun, List.replicate_succ]
      rw [this]
      exact ih _ (by simp [engineStep, hA, advanceCall])
  · intro e hinv hA hB hidle
    have hflag : e.isGenerating = false := by
      rw [hinv.1, hA, hB]; rfl
    constructor <;> simp [engineStep, hidle, advanceCall, hflag]

/-- Witness for C5 at concrete states: with `n = 2` segments, a busy
rejection from a mid-flight state, completion of the first call, and
acceptance after settling. -/
theorem c5_concurrency_guard_witness :
    ((⟨true, .running 1, .idle⟩ : Engine).callA.isRunning = true
      ∧ (⟨true, .running 1, .idle⟩ : Engine).callB = .idle
      ∧ EngineInv ⟨true, .running 1, .idle⟩)
    ∧ (engineStep 2 ⟨true, .running 1, .idle⟩ .stepB).callB = .rejected busyMessage
    ∧ (engineRun 2 ⟨true, .running 1, .rejected busyMessage⟩
        (List.replicate 2 .stepA)).callA = .completed
    ∧ (engineStep 2 ⟨false, .completed, .idle⟩ .stepB).callB = .running 2 := by
  have h1 : EngineInv (⟨true, .running 1, .idle⟩ : Engine) :=
    ⟨rfl, by simp [CallPhase.isRunning]⟩
  refine ⟨⟨rfl, rfl, h1⟩,
    ((c5_concurrency_guard 2).2.1 ⟨true, .running 1, .idle⟩ rfl rfl h1).1,
    (c5_concurrency_guard 2).2.2.1 ⟨true, .running 1, .rejected busyMessage⟩ 1 rfl,
    ((c5_concurrency_guard 2).2.2.2 ⟨false, .completed, .idle⟩
      ⟨rfl, by simp [CallPhase.isRunning]⟩ rfl rfl rfl).1⟩

/-! ## Background texture noise (visual-generator.js lines 436–454)

`addBackgroundTexture` returns immediately when the style profile's
`textureNoise` intensity is zero; otherwise it adds `(Math.random() - 0.5) *
intensity` to the R, G and B channels of every pixel (one random draw per
pixel),清amped to `[0, 255]` by the `Uint8ClampedArray` store (which rounds
half to even).  The random stream is modelled as an explicit `rng : Nat → ℚ`
(pixel index to the `Math.random()` draw for that pixel); this is the only
consumer of randomness in the whole `generateCard` pipeline — every other
drawing step is a deterministic function of the call's inputs. -/

/-- One RGBA pixel of the canvas backing store. -/
structure Px where
  r : ℤ
  g : ℤ
  b : ℤ
  a : ℤ
deriving DecidableEq, Repr

/-- Clamp to one byte, as the `Uint8ClampedArray` store does. -/
def clamp255 (x : ℤ) : ℤ := max 0 (min 255 x)

/-- Round half to even, the `Uint8ClampedArray` conversion rule. -/
def roundHalfEven (q : ℚ) : ℤ :=
  let f := ⌊q⌋
  let r := q - f
  if r < 1/2 then f
  else if 1/2 < r then f + 1
  else if f % 2 = 0 then f else f + 1

/-- Store `c + noise` into a clamped byte channel. -/
def storeChannel (c : ℤ) (noise : ℚ) : ℤ :=
  clamp255 (roundHalfEven ((c : ℚ) + noise))

/-- The per-pixel update of `addBackgroundTexture`: one `Math.random()` draw
per pixel, applied to R, G, B; alpha untouched. -/
def applyNoise (intensity : Nat) (rnd : ℚ) (p : Px) : Px :=
  let noise := (rnd - 1/2) * (intensity : ℚ)
  ⟨storeChannel p.r noise, storeChannel p.g noise, storeChannel p.b noise, p.a⟩

/-- `addBackgroundTexture`: early return when `intensity <= 0`, else noise
every pixel with its own random draw. -/
def addBackgroundTexture (intensity : Nat) (rng : Nat → ℚ) (buf : List Px) : List Px :=
  if intensity ≤ 0 then buf
  else buf.enum.map (fun p => applyNoise intensity (rng p.1) p.2)

/-- The texture stage of `generateCard` for a given `options.imageStyle`:
`drawBackground` ends with `addBackgroundTexture(templateConfig,
styleProfile)` using the resolved profile's `textureNoise`. -/
def generateCardTexture (imageStyle : Option String) (rng : Nat → ℚ)
    (base : List Px) : List Px :=
  addBackgroundTexture (getStyleProfile imageStyle).textureNoise rng base

/-- Counterexample to C1 as stated: with the default style (the
`illustration` profile, `textureNoise = 2`), the drawn surface is not a
function of `(content, template, tags, options)` alone — two renders whose
`Math.random()` draws differ (here the streams are constantly `0` and
constantly `1/2`) produce different pixels from the same fully fixed
inputs, so two successive calls are not pixel-identical. -/
theorem c1_random_noise_counterexample :
    generateCardTexture none (fun _ => 0) [⟨255, 255, 255, 255⟩]
      ≠ generateCardTexture none (fun _ => 1/2) [⟨255, 255, 255, 255⟩] := by
  have hnoise : (getStyleProfile none).textureNoise = 2 := rfl
  have hq0 : (((255:ℤ) : ℚ) + ((0:ℚ) - 1/2) * ((2:ℕ) : ℚ)) = 254 := by
    push_cast
    norm_num
  have hq1 : (((255:ℤ) : ℚ) + ((1/2:ℚ) - 1/2) * ((2:ℕ) : ℚ)) = 255 := by
    push_cast
    norm_num
  have hr0 : roundHalfEven (((255:ℤ) : ℚ) + ((0:ℚ) - 1/2) * ((2:ℕ) : ℚ)) = 254 := by
    unfold roundHalfEven
    rw [hq0]
    norm_num
  have hr1 : roundHalfEven (((255:ℤ) : ℚ) + ((1/2:ℚ) - 1/2) * ((2:ℕ) : ℚ)) = 255 := by
    unfold roundHalfEven
    rw [hq1]
    norm_num
  have hL : generateCardTexture none (fun _ => 0) [⟨255, 255, 255, 255⟩]
      = [⟨254, 254, 254, 255⟩] := by
    unfold generateCardTexture
    rw [hnoise]
    unfold addBackgroundTexture
    simp only [List.enum, List.enumFrom, List.map, applyNoise, storeChannel,
      clamp255, hr0]
    norm_num
  have hR : generateCardTexture none (fun _ => 1/2) [⟨255, 255, 255, 255⟩]
      = [⟨255, 255, 255, 255⟩] := by
    unfold generateCardTexture
    rw [hnoise]
    unfold addBackgroundTexture
    simp only [List.enum, List.enumFrom, List.map, applyNoise, storeChannel,
      clamp255, hr1]
    norm_num
  rw [hL, hR]
  decide

/-- C1 (amended): two renders from the same `(content, template, tags,
options)` produce pixel-identical output exactly when the resolved style
profile has zero texture-noise intensity (for example the `minimalist`
profile): the texture stage is then the identity for every random stream,
and it is the only consumer of randomness in the `generateCard` pipeline,
all other stages being deterministic functions of the inputs. -/
theorem c1_texture_determinism_when_no_noise
    (imageStyle : Option String) (rng1 rng2 : Nat → ℚ) (base : List Px)
    (h : (getStyleProfile imageStyle).textureNoise = 0) :
    generateCardTexture imageStyle rng1 base
      = generateCardTexture imageStyle rng2 base := by
  unfold generateCardTexture addBackgroundTexture
  rw [h]
  simp

/-- Witness for the amended C1: the `minimalist` profile has zero noise and
two distinct random streams yield the same surface. -/
theorem c1_texture_determinism_witness :
    (getStyleProfile (some "minimalist")).textureNoise = 0
    ∧ generateCardTexture (some "minimalist") (fun _ => 0) [⟨255, 255, 255, 255⟩]
        = generateCardTexture (some "minimalist") (fun _ => 1/2) [⟨255, 255, 255, 255⟩] := by
  refine ⟨by decide, c1_texture_determinism_when_no_noise
    (some "minimalist") (fun _ => 0) (fun _ => 1/2) [⟨255, 255, 255, 255⟩] (by decide)⟩

/-! ## Line-break engine (visual-generator.js lines 701–876)

`tokenizeForWrap` splits a line into Latin/digit runs, single CJK or
punctuation code units, and collapsed single spaces; `wrapCanvasText`
greedily fills lines against a pixel budget, merging dangling closing
punctuation back onto the previous line; `parseListItem` recognises list
markers (decorative glyphs, bullets, numeric/CJK enumerations) with the
numeric-precedence rule; `layoutTextLines` drives all of this per raw line
and strips leading/trailing blank items. -/

/-- The closing-punctuation class of `wrapCanvasText`
(regex `^[，。！？、；：:,.!?;)\]\}》）”’…%]$`). -/
def wrapPunctUnits : JStr :=
  [0xFF0C, 0x3002, 0xFF01, 0xFF1F, 0x3001, 0xFF1B, 0xFF1A, 58, 44, 46, 33,
   63, 59, 41, 93, 125, 0x300B, 0xFF09, 0x201D, 0x2019, 0x2026, 37]

/-- A token is punctuation when it is a single code unit of the class. -/
def isPunctTok (t : JStr) : Bool :=
  match t with
  | [u] => wrapPunctUnits.contains u
  | _ => false

/-- The plain bullet class `[-*•·]`. -/
def bulletUnits : JStr := jsStr "-*•·"

/-- The CJK numerals `[一二三四五六七八九十]`. -/
def cjkNumUnits : JStr := jsStr "一二三四五六七八九十"

/-- The enumeration punctuation class `[\.\)、\)）]`. -/
def numPunctUnits : JStr := jsStr ".)、）"

/-- JS `\d` on a code unit. -/
def isDigitU (u : Nat) : Bool := 48 ≤ u && u ≤ 57

/-- The decorative marker glyphs, in the regex's alternation order (each is
the literal UTF-16 unit sequence; several are two units long). -/
def decoMarkers : List JStr :=
  [jsStr "✅", jsStr "☑️", jsStr "✔️", jsStr "👉", jsStr "💡", jsStr "🔥",
   jsStr "⭐️", jsStr "⭐", jsStr "🌟", jsStr "🟢", jsStr "🔸", jsStr "🔹",
   jsStr "🔻", jsStr "🔺", jsStr "▶︎", jsStr "▶", jsStr "→"]

/-- Match `(?:\d{1,2}|[一二三四五六七八九十]+)[\.\)、\)）]` at the start of
`l`, returning the matched marker and the remainder.  The regex's greedy
matching with backtracking admits exactly one candidate split: a shorter
digit/numeral run would have to be followed by a digit/numeral, which is
never in the punctuation class. -/
def matchNumericMarker (l : JStr) : Option (JStr × JStr) :=
  match l with
  | [] => none
  | a :: rest =>
    if isDigitU a then
      match rest with
      | [] => none
      | b :: rest2 =>
        if isDigitU b then
          match rest2 with
          | [] => none
          | c :: rest3 =>
            if numPunctUnits.contains c then some ([a, b, c], rest3) else none
        else if numPunctUnits.contains b then some ([a, b], rest2) else none
    else if cjkNumUnits.contains a then
      let run := l.takeWhile (fun u => cjkNumUnits.contains u)
      match l.drop run.length with
      | [] => none
      | p :: r => if numPunctUnits.contains p then some (run ++ [p], r) else none
    else none

/-- Test `^(?:\d{1,2}|[一二三四五六七八九十]+)[\.\)、\)）]$` (full match). -/
def isNumericMarker (m : JStr) : Bool :=
  match matchNumericMarker m with
  | some (_, []) => true
  | _ => false

/-- The marker alternation of `parseListItem`, tried in the regex's order;
an alternative is accepted only if something follows it (the trailing
`\s*(.+)$` needs at least one character, and `.` also matches blanks). -/
def listAltSplit (l : JStr) : Option (JStr × JStr) :=
  let fromDeco := decoMarkers.filterMap (fun m =>
    if m.isPrefixOf l then some (m, l.drop m.length) else none)
  let fromBullet : List (JStr × JStr) :=
    match l with
    | u :: r => if bulletUnits.contains u then [([u], r)] else []
    | [] => []
  let fromNumeric : List (JStr × JStr) :=
    match matchNumericMarker l with
    | some x => [x]
    | none => []
  (fromDeco ++ fromBullet ++ fromNumeric).find? (fun mr => !mr.2.isEmpty)

/-- `parseListItem(line)`: match the marker regex, split into trimmed
marker and content, then apply the numeric-precedence rule: a
non-enumeration marker followed by content that itself starts with a
numeric enumeration (with something after it) is replaced by that numeric
marker. -/
def parseListItem (line : JStr) : Option (JStr × JStr) :=
  match listAltSplit (trimStartJ line) with
  | none => none
  | some (marker0, rest) =>
    let marker := trimJ marker0
    let content := trimJ rest
    if marker.isEmpty ∨ content.isEmpty then none
    else
      let swapped : Option (JStr × JStr) :=
        if isNumericMarker marker then none
        else
          match matchNumericMarker content with
          | some (np, r2) => if r2.isEmpty then none else some (np, trimJ r2)
          | none => none
      match swapped with
      | some (m2, c2) => if c2.isEmpty then none else some (m2, c2)
      | none => some (marker, content)

/-- The tokenizer's `flush()`. -/
def flushBuf (toks : List JStr) (buf : JStr) : List JStr :=
  if buf.isEmpty then toks else toks ++ [buf]

/-- The code-unit loop of `tokenizeForWrap`: tab becomes an unconditional
space token, whitespace flushes and merges into a single space token,
Latin/digit units accumulate into a run buffer, anything else is its own
token. -/
def tokenizeAux : JStr → List JStr → JStr → List JStr
  | [], toks, buf => flushBuf toks buf
  | u :: rest, toks, buf =>
    if u = 9 then tokenizeAux rest (flushBuf toks buf ++ [[32]]) []
    else if isWsUnit u then
      let fl := flushBuf toks buf
      tokenizeAux rest (if fl.getLast? = some [32] then fl else fl ++ [[32]]) []
    else if isLatinUnit u then
      if buf.isEmpty then tokenizeAux rest toks [u]
      else tokenizeAux rest toks (buf ++ [u])
    else tokenizeAux rest (flushBuf toks buf ++ [[u]]) []

/-- `tokenizeForWrap(text)`. -/
def tokenizeForWrap (l : JStr) : List JStr := tokenizeAux l [] []

/-- Measured pixel width of a string under the font metric `cw`
(`ctx.measureText(s).width`, additive over code units). -/
def measureW (cw : Nat → Nat) (l : JStr) : Nat := (l.map cw).sum

/-- `pushLine` of `wrapCanvasText`: trim the end, drop empty lines. -/
def pushLine (res : List JStr) (line : JStr) : List JStr :=
  let t := trimEndJ line
  if t.isEmpty then res else res ++ [t]

/-- The overflow logic of the token loop: when `current + token` exceeds
the budget and `current` is non-empty, either split the last character off
with the dangling punctuation, or close the line and start a new one. -/
def wrapCore (cw : Nat → Nat) (maxW : ℤ) (res : List JStr) (cur : JStr)
    (tok : JStr) : List JStr × JStr :=
  let testLine := cur ++ tok
  if (measureW cw testLine : ℤ) > maxW ∧ ¬cur.isEmpty then
    let tc := trimEndJ cur
    if isPunctTok tok = true ∧ tc.length > 1 then
      match tc.getLast? with
      | some lc => (pushLine res tc.dropLast, [lc] ++ tok)
      | none => (pushLine res tc, if tok = [32] then [] else tok)
    else (pushLine res tc, if tok = [32] then [] else tok)
  else (res, testLine)

/-- One token of `wrapCanvasText`'s `forEach`: skip empty tokens and
leading spaces, try to merge dangling punctuation onto the previous
completed line, else run the overflow logic. -/
def wrapStep (cw : Nat → Nat) (maxW : ℤ) (st : List JStr × JStr)
    (tok : JStr) : List JStr × JStr :=
  let res := st.1
  let cur := st.2
  if tok.isEmpty then st
  else if tok = [32] ∧ cur.isEmpty then st
  else if cur.isEmpty ∧ ¬res.isEmpty ∧ isPunctTok tok = true then
    match res.getLast? with
    | some prev =>
      if (measureW cw (prev ++ tok) : ℤ) ≤ maxW then
        (res.dropLast ++ [prev ++ tok], cur)
      else wrapCore cw maxW res cur tok
    | none => wrapCore cw maxW res cur tok
  else wrapCore cw maxW res cur tok

/-- `wrapCanvasText(text, maxWidth)`. -/
def wrapCanvasText (cw : Nat → Nat) (text : JStr) (maxW : ℤ) : List JStr :=
  let st := (tokenizeForWrap text).foldl (wrapStep cw maxW) ([], [])
  let res := if ¬(trimJ st.2).isEmpty then pushLine st.1 st.2 else st.1
  if res.isEmpty then [[]] else res

/-- A positioned drawing instruction produced by `layoutTextLines`. -/
inductive LineItem where
  | blank : LineItem
  | heading : JStr → LineItem
  | textLine (marker : JStr) (listGroup : Option Nat) (indentPx : Nat)
      (content : JStr) : LineItem
deriving DecidableEq, Repr

/-- Whether an item is the vertical spacer. -/
def isBlankItem : LineItem → Bool
  | .blank => true
  | _ => false

/-- `String(text).replace(/\r\n/g, '\n')`. -/
def replaceCRLF : JStr → JStr
  | 13 :: 10 :: rest => 10 :: replaceCRLF rest
  | u :: rest => u :: replaceCRLF rest
  | [] => []

/-- `split('\n')`. -/
def splitNL : JStr → List JStr
  | [] => [[]]
  | 10 :: rest => [] :: splitNL rest
  | u :: rest =>
    match splitNL rest with
    | s :: ss => (u :: s) :: ss
    | [] => [[u]]

/-- One raw line of `layoutTextLines`: blank spacer, short heading ending
in a colon, list item (marker measured, content wrapped against the
indent-reduced budget, first wrapped segment carries the marker), or a
plain wrapped line.  `seq` threads the `listGroupSeq` counter. -/
def layoutOneLine (cw : Nat → Nat) (maxW : ℤ) (seq : Nat) (rawLine : JStr) :
    Nat × List LineItem :=
  let line := trimJ rawLine
  if line.isEmpty then (seq, [LineItem.blank])
  else
    let endsColon := line.getLast? = some 58 ∨ line.getLast? = some 0xFF1A
    let headingText := trimJ line.dropLast
    if line.length ≤ 12 ∧ endsColon ∧ ¬headingText.isEmpty then
      (seq, [LineItem.heading headingText])
    else
      match parseListItem line with
      | some (marker, content) =>
        let seq2 := seq + 1
        let ind := measureW cw marker + 10
        let wrapped := wrapCanvasText cw content (maxW - (ind : ℤ))
        (seq2, wrapped.enum.map (fun p =>
          LineItem.textLine (if p.1 = 0 then marker else []) (some seq2) ind p.2))
      | none =>
        (seq, (wrapCanvasText cw line maxW).map
          (fun t => LineItem.textLine [] none 0 t))

/-- Drop the longest suffix of items satisfying `p` (the trailing
`while ... pop()` loop). -/
def dropEndWhile (p : LineItem → Bool) : List LineItem → List LineItem
  | [] => []
  | x :: xs =>
    let r := dropEndWhile p xs
    if r.isEmpty ∧ p x = true then [] else x :: r

/-- `layoutTextLines(text, maxWidth)`. -/
def layoutTextLines (cw : Nat → Nat) (text : JStr) (maxW : ℤ) : List LineItem :=
  let raws := splitNL (replaceCRLF text)
  let all := (raws.foldl
    (fun st r =>
      let next := layoutOneLine cw maxW st.1 r
      (next.1, st.2 ++ next.2))
    ((0, []) : Nat × List LineItem)).2
  dropEndWhile isBlankItem (all.dropWhile isBlankItem)

lemma head_dropWhile_not (p : LineItem → Bool) (l : List LineItem) :
    ∀ x, (l.dropWhile p).head? = some x → p x = false := by
  induction l with
  | nil => intro x h; simp [List.dropWhile] at h
  | cons a l ih =>
    intro x h
    by_cases hp : p a = true
    · rw [List.dropWhile_cons_of_pos hp] at h
      exact ih x h
    · rw [List.dropWhile_cons_of_neg hp] at h
      simp at h
      rw [← h]
      exact Bool.eq_false_iff.2 hp

lemma mem_dropEndWhile (p : LineItem → Bool) (l : List LineItem) :
    ∀ x ∈ dropEndWhile p l, x ∈ l := by
  induction l with
  | nil => intro x h; simp [dropEndWhile] at h
  | cons a l ih =>
    intro x h
    simp only [dropEndWhile] at h
    split at h
    · simp at h
    · rcases List.mem_cons.1 h with h | h
      · exact h ▸ List.mem_cons_self _ _
      · exact List.mem_cons_of_mem _ (ih x h)

lemma dropEndWhile_head (p : LineItem → Bool) (l : List LineItem) :
    (dropEndWhile p l).head? = none ∨ (dropEndWhile p l).head? = l.head? := by
  cases l with
  | nil => left; rfl
  | cons a l =>
    simp only [dropEndWhile]
    split
    · left; rfl
    · right; rfl

lemma dropEndWhile_getLast (p : LineItem → Bool) (l : List LineItem) :
    ∀ x, (dropEndWhile p l).getLast? = some x → p x = false := by
  induction l with
  | nil => intro x h; simp [dropEndWhile] at h
  | cons a l ih =>
    intro x h
    simp only [dropEndWhile] at h
    split at h
    · simp at h
    · rename_i hcond
      cases hr : dropEndWhile p l with
      | nil =>
        rw [hr] at h
        simp at h
        rw [← h]
        rcases Decidable.not_and_iff_or_not.1 hcond with hcase | hcase
        · rw [hr] at hcase; simp at hcase
        · exact Bool.eq_false_iff.2 hcase
      | cons b bs =>
        rw [hr, List.getLast?_cons_cons] at h
        exact ih x (hr ▸ h)

/-- C10: for every body string, width budget and font metric, the sequence
of line items produced by `layoutTextLines` neither begins nor ends with a
blank spacer: the trailing `shift`/`pop` loops strip them, so blanks occur
only strictly between non-blank items. -/
theorem c10_no_leading_trailing_blank (cw : Nat → Nat) (text : JStr) (maxW : ℤ) :
    ((layoutTextLines cw text maxW).head?.all (fun it => !isBlankItem it)) = true
    ∧ ((layoutTextLines cw text maxW).getLast?.all (fun it => !isBlankItem it)) = true := by
  unfold layoutTextLines
  constructor
  · rcases dropEndWhile_head isBlankItem
        (((splitNL (replaceCRLF text)).foldl
          (fun st r =>
            let next := layoutOneLine cw maxW st.1 r
            (next.1, st.2 ++ next.2)) ((0, []) : Nat × List LineItem)).2.dropWhile
            isBlankItem) with h | h
    · simp [h]
    · rw [h]
      cases hh : (((splitNL (replaceCRLF text)).foldl
          (fun st r =>
            let next := layoutOneLine cw maxW st.1 r
            (next.1, st.2 ++ next.2)) ((0, []) : Nat × List LineItem)).2.dropWhile
            isBlankItem).head? with
      | none => simp
      | some x =>
        simp [Option.all, head_dropWhile_not isBlankItem _ x hh]
  · cases hh : (dropEndWhile isBlankItem
        (((splitNL (replaceCRLF text)).foldl
          (fun st r =>
            let next := layoutOneLine cw maxW st.1 r
            (next.1, st.2 ++ next.2)) ((0, []) : Nat × List LineItem)).2.dropWhile
            isBlankItem)).getLast? with
    | none => simp
    | some x =>
      simp [Option.all, dropEndWhile_getLast isBlankItem _ x hh]

/-! ### Width invariant of the wrap engine -/

lemma measureW_sublist (cw : Nat → Nat) {l1 l2 : JStr} (h : l1.Sublist l2) :
    measureW cw l1 ≤ measureW cw l2 := by
  induction h with
  | slnil => exact le_refl _
  | cons a _ ih => simpa [measureW] using le_trans ih (by simp [measureW])
  | cons₂ a _ ih => simpa [measureW] using ih

lemma measureW_reverse (cw : Nat → Nat) (l : JStr) :
    measureW cw l.reverse = measureW cw l := by
  simp [measureW, List.map_reverse, List.sum_reverse]

lemma measureW_trimEnd_le (cw : Nat → Nat) (l : JStr) :
    measureW cw (trimEndJ l) ≤ measureW cw l := by
  unfold trimEndJ
  rw [measureW_reverse]
  calc measureW cw (l.reverse.dropWhile isWsUnit)
      ≤ measureW cw l.reverse := measureW_sublist cw (List.dropWhile_sublist _)
    _ = measureW cw l := measureW_reverse cw l

lemma measureW_dropLast_le (cw : Nat → Nat) (l : JStr) :
    measureW cw l.dropLast ≤ measureW cw l :=
  measureW_sublist cw (List.dropLast_sublist l)

lemma measureW_append (cw : Nat → Nat) (l1 l2 : JStr) :
    measureW cw (l1 ++ l2) = measureW cw l1 + measureW cw l2 := by
  simp [measureW]

lemma isPunctTok_single {t : JStr} (h : isPunctTok t = true) : ∃ u, t = [u] := by
  unfold isPunctTok at h
  match t, h with
  | [u], _ => exact ⟨u, rfl⟩

/-- The loop invariant of `wrapCanvasText`: every completed line and the
pending line fit the budget. -/
def WrapGood (cw : Nat → Nat) (maxW : ℤ) (st : List JStr × JStr) : Prop :=
  (∀ l ∈ st.1, (measureW cw l : ℤ) ≤ maxW) ∧ (measureW cw st.2 : ℤ) ≤ maxW

lemma pushLine_good (cw : Nat → Nat) (maxW : ℤ) (res : List JStr) (line : JStr)
    (hres : ∀ l ∈ res, (measureW cw l : ℤ) ≤ maxW)
    (hline : (measureW cw line : ℤ) ≤ maxW) :
    ∀ l ∈ pushLine res line, (measureW cw l : ℤ) ≤ maxW := by
  intro l hl
  unfold pushLine at hl
  dsimp only at hl
  split at hl
  · exact hres l hl
  · rcases List.mem_append.1 hl with h | h
    · exact hres l h
    · simp at h
      subst h
      exact le_trans (by exact_mod_cast measureW_trimEnd_le cw line) hline

lemma maxW_nonneg (cw : Nat → Nat) (maxW : ℤ)
    (hpair : ∀ u v : Nat, ((cw u + cw v : Nat) : ℤ) ≤ maxW) : (0 : ℤ) ≤ maxW :=
  le_trans (Int.natCast_nonneg _) (hpair 0 0)

lemma wrapCore_good (cw : Nat → Nat) (maxW : ℤ) (res : List JStr) (cur : JStr)
    (tok : JStr)
    (hpair : ∀ u v : Nat, ((cw u + cw v : Nat) : ℤ) ≤ maxW)
    (hres : ∀ l ∈ res, (measureW cw l : ℤ) ≤ maxW)
    (hcur : (measureW cw cur : ℤ) ≤ maxW)
    (htok : (measureW cw tok : ℤ) ≤ maxW) :
    WrapGood cw maxW (wrapCore cw maxW res cur tok) := by
  unfold wrapCore
  dsimp only
  split
  · rename_i hover
    have htc : (measureW cw (trimEndJ cur) : ℤ) ≤ maxW :=
      le_trans (by exact_mod_cast measureW_trimEnd_le cw cur) hcur
    split
    · rename_i hpl
      rcases isPunctTok_single hpl.1 with ⟨v, hv⟩
      cases hlast : (trimEndJ cur).getLast? with
      | some lc =>
        simp only [hlast]
        refine ⟨pushLine_good cw maxW res _ hres
          (le_trans (by exact_mod_cast measureW_dropLast_le cw (trimEndJ cur)) htc), ?_⟩
        subst hv
        have heq : measureW cw ([lc] ++ [v]) = cw lc + cw v := by
          simp [measureW]
        simpa [heq] using hpair lc v
      | none =>
        simp only [hlast]
        refine ⟨pushLine_good cw maxW res _ hres htc, ?_⟩
        split
        · simpa [measureW] using maxW_nonneg cw maxW hpair
        · exact htok
    · refine ⟨pushLine_good cw maxW res _ hres htc, ?_⟩
      split
      · simpa [measureW] using maxW_nonneg cw maxW hpair
      · exact htok
  · rename_i hover
    refine ⟨hres, ?_⟩
    by_cases hgt : (measureW cw (cur ++ tok) : ℤ) > maxW
    · have hemp : cur.isEmpty = true := by
        by_contra hne
        exact hover ⟨hgt, hne⟩
      have hnil : cur = [] := by
        cases cur with
        | nil => rfl
        | cons a l => simp at hemp
      subst hnil
      simpa using htok
    · exact le_of_not_lt hgt

lemma wrapStep_good (cw : Nat → Nat) (maxW : ℤ)
    (hpair : ∀ u v : Nat, ((cw u + cw v : Nat) : ℤ) ≤ maxW)
    (st : List JStr × JStr) (tok : JStr)
    (hst : WrapGood cw maxW st)
    (htok : (measureW cw tok : ℤ) ≤ maxW) :
    WrapGood cw maxW (wrapStep cw maxW st tok) := by
  obtain ⟨hres, hcur⟩ := hst
  unfold wrapStep
  dsimp only
  split
  · exact ⟨hres, hcur⟩
  · split
    · exact ⟨hres, hcur⟩
    · split
      · split
        · rename_i prev hprev
          split
          · rename_i hle
            refine ⟨?_, hcur⟩
            intro l hl
            rcases List.mem_append.1 hl with h | h
            · exact hres l ((List.dropLast_sublist _).subset h)
            · simp at h
              subst h
              exact hle
          · exact wrapCore_good cw maxW st.1 st.2 tok hpair hres hcur htok
        · exact wrapCore_good cw maxW st.1 st.2 tok hpair hres hcur htok
      · exact wrapCore_good cw maxW st.1 st.2 tok hpair hres hcur htok

lemma wrapFold_good (cw : Nat → Nat) (maxW : ℤ)
    (hpair : ∀ u v : Nat, ((cw u + cw v : Nat) : ℤ) ≤ maxW) :
    ∀ (toks : List JStr) (st : List JStr × JStr),
      WrapGood cw maxW st →
      (∀ t ∈ toks, (measureW cw t : ℤ) ≤ maxW) →
      WrapGood cw maxW (toks.foldl (wrapStep cw maxW) st) := by
  intro toks
  induction toks with
  | nil => intro st h _; exact h
  | cons t ts ih =>
    intro st hst htoks
    exact ih _ (wrapStep_good cw maxW hpair st t hst (htoks t (List.mem_cons_self _ _)))
      (fun x hx => htoks x (List.mem_cons_of_mem _ hx))

lemma wrapCanvasText_le (cw : Nat → Nat) (text : JStr) (maxW : ℤ)
    (hpair : ∀ u v : Nat, ((cw u + cw v : Nat) : ℤ) ≤ maxW)
    (htoks : ∀ t ∈ tokenizeForWrap text, (measureW cw t : ℤ) ≤ maxW) :
    ∀ l ∈ wrapCanvasText cw text maxW, (measureW cw l : ℤ) ≤ maxW := by
  intro l hl
  unfold wrapCanvasText at hl
  dsimp only at hl
  have hgood : WrapGood cw maxW
      ((tokenizeForWrap text).foldl (wrapStep cw maxW) ([], [])) :=
    wrapFold_good cw maxW hpair (tokenizeForWrap text) ([], [])
      ⟨by intro x hx; simp at hx, by simpa [measureW] using maxW_nonneg cw maxW hpair⟩
      htoks
  split at hl
  · split at hl
    · simp at hl
      subst hl
      simpa [measureW] using maxW_nonneg cw maxW hpair
    · exact (pushLine_good cw maxW _ _ hgood.1 hgood.2) l hl
  · split at hl
    · simp at hl
      subst hl
      simpa [measureW] using maxW_nonneg cw maxW hpair
    · exact hgood.1 l hl

/-- Per-line hypothesis under which wrapping cannot overflow: every token
of the line's wrap source fits its budget (the indent-reduced budget for a
list item), and any two code-unit widths fit together (so the dangling
punctuation split `lastChar + token` also fits).  The width invariant
genuinely requires this: an unbreakable token wider than the budget becomes
an overflowing line (see the counterexample). -/
def lineFits (cw : Nat → Nat) (maxW : ℤ) (rawLine : JStr) : Prop :=
  match parseListItem (trimJ rawLine) with
  | some mc =>
      (∀ t ∈ tokenizeForWrap mc.2,
        (measureW cw t : ℤ) ≤ maxW - ((measureW cw mc.1 + 10 : Nat) : ℤ))
      ∧ (∀ u v : Nat,
        ((cw u + cw v : Nat) : ℤ) ≤ maxW - ((measureW cw mc.1 + 10 : Nat) : ℤ))
  | none =>
      (∀ t ∈ tokenizeForWrap (trimJ rawLine), (measureW cw t : ℤ) ≤ maxW)
      ∧ (∀ u v : Nat, ((cw u + cw v : Nat) : ℤ) ≤ maxW)

/-- The width conclusion for one item: a text line's indent plus content
width fits the budget, and its marker fits inside the indent. -/
def TextFits (cw : Nat → Nat) (maxW : ℤ) (it : LineItem) : Prop :=
  ∀ m g i c, it = LineItem.textLine m g i c →
    ((i : ℤ) + (measureW cw c : ℤ) ≤ maxW ∧ (measureW cw m : ℤ) ≤ (i : ℤ))

lemma mem_enumFrom_snd {α : Type} :
    ∀ (l : List α) (n : Nat) (p : Nat × α), p ∈ l.enumFrom n → p.2 ∈ l := by
  intro l
  induction l with
  | nil => intro n p hp; simp [List.enumFrom] at hp
  | cons a l ih =>
    intro n p hp
    rw [List.enumFrom] at hp
    rcases List.mem_cons.1 hp with h | h
    · subst h; exact List.mem_cons_self _ _
    · exact List.mem_cons_of_mem _ (ih (n + 1) p h)

lemma layoutOneLine_width (cw : Nat → Nat) (maxW : ℤ) (seq : Nat) (r : JStr)
    (hf : lineFits cw maxW r) :
    ∀ it ∈ (layoutOneLine cw maxW seq r).2, TextFits cw maxW it := by
  intro it hit
  unfold layoutOneLine at hit
  dsimp only at hit
  split at hit
  · simp at hit
    subst hit
    intro m g i c h
    exact absurd h (by simp)
  · split at hit
    · simp at hit
      subst hit
      intro m g i c h
      exact absurd h (by simp)
    · unfold lineFits at hf
      split at hit
      · rename_i marker content hpl
        rw [hpl] at hf
        dsimp only at hf
        obtain ⟨p, hmem, heq⟩ := List.mem_map.1 hit
        have ht : p.2 ∈ wrapCanvasText cw content
            (maxW - ((measureW cw marker + 10 : Nat) : ℤ)) :=
          mem_enumFrom_snd _ _ _ hmem
        have hle := wrapCanvasText_le cw content _ hf.2 hf.1 p.2 ht
        intro m g i c hc
        have hcc := heq.trans hc
        injection hcc with hm hg hi hc2
        subst hm
        subst hi
        subst hc2
        constructor
        · push_cast at hle ⊢
          omega
        · split
          · push_cast
            omega
          · have h0 : (measureW cw ([] : JStr) : ℤ) = 0 := by simp [measureW]
            rw [h0]
            exact Int.natCast_nonneg _
      · rename_i hpl
        rw [hpl] at hf
        dsimp only at hf
        obtain ⟨t, ht, heq⟩ := List.mem_map.1 hit
        have hle := wrapCanvasText_le cw (trimJ r) maxW hf.2 hf.1 t ht
        intro m g i c hc
        have hcc := heq.trans hc
        injection hcc with hm hg hi hc2
        subst hm
        subst hi
        subst hc2
        constructor
        · simpa using hle
        · simp [measureW]

lemma layoutFold_width (cw : Nat → Nat) (maxW : ℤ) :
    ∀ (raws : List JStr) (seq : Nat) (acc : List LineItem),
      (∀ it ∈ acc, TextFits cw maxW it) →
      (∀ r ∈ raws, lineFits cw maxW r) →
      ∀ it ∈ (raws.foldl (fun st r =>
          let next := layoutOneLine cw maxW st.1 r
          (next.1, st.2 ++ next.2)) ((seq, acc) : Nat × List LineItem)).2,
        TextFits cw maxW it := by
  intro raws
  induction raws with
  | nil => intro seq acc hacc _ it hit; exact hacc it hit
  | cons r rs ih =>
    intro seq acc hacc hfits it hit
    simp only [List.foldl_cons] at hit
    refine ih _ _ ?_ (fun x hx => hfits x (List.mem_cons_of_mem _ hx)) it hit
    intro x hx
    rcases List.mem_append.1 hx with h | h
    · exact hacc x h
    · exact layoutOneLine_width cw maxW seq r (hfits r (List.mem_cons_self _ _)) x h

/-- C2 (amended): for every body string, font metric and width budget, all
`text`-type line items produced by `layoutTextLines` satisfy the width
invariant — indent plus wrapped content measures at most the budget, and
the marker fits inside the indent — provided each raw line satisfies
`lineFits` (all its wrap tokens fit the line's own budget, and any two
code-unit widths fit together).  Without that proviso the invariant fails:
see the counterexample with an unbreakable Latin token. -/
theorem c2_wrapped_width_within_budget (cw : Nat → Nat) (text : JStr) (maxW : ℤ)
    (h : ∀ r ∈ splitNL (replaceCRLF text), lineFits cw maxW r) :
    ∀ it ∈ layoutTextLines cw text maxW, ∀ m g i c,
      it = LineItem.textLine m g i c →
      ((i : ℤ) + (measureW cw c : ℤ) ≤ maxW
        ∧ (measureW cw m : ℤ) ≤ (i : ℤ)) := by
  intro it hit
  unfold layoutTextLines at hit
  dsimp only at hit
  have h1 := mem_dropEndWhile isBlankItem _ it hit
  have h2 := (List.dropWhile_sublist isBlankItem).subset h1
  exact layoutFold_width cw maxW (splitNL (replaceCRLF text)) 0 []
    (by intro x hx; simp at hx) h it h2

/-- Counterexample to C2 as stated: with every code unit 10px wide and a
100px budget, the single unbreakable Latin token `abcdefghijkl` becomes a
`text` line of measured width 120 — the wrap engine cannot split inside a
Latin run, so an unbreakable token wider than the budget overflows it. -/
theorem c2_width_counterexample :
    layoutTextLines (fun _ => 10) (jsStr "abcdefghijkl") 100
      = [LineItem.textLine [] none 0 (jsStr "abcdefghijkl")]
    ∧ ¬ ((0 : ℤ) + (measureW (fun _ => 10) (jsStr "abcdefghijkl") : ℤ) ≤ 100) := by
  constructor
  · decide
  · decide

/-- Witness for the amended C2 at a concrete input: the list line
`1. hello` with constant 10px widths and a 500px budget satisfies
`lineFits`, and the resulting text line (marker `1.`, indent 30,
content `hello`) satisfies the width invariant. -/
theorem c2_wrapped_width_within_budget_witness :
    ((30 : Nat) : ℤ) + (measureW (fun _ => 10) (jsStr "hello") : ℤ) ≤ 500
    ∧ (measureW (fun _ => 10) (jsStr "1.") : ℤ) ≤ ((30 : Nat) : ℤ) := by
  have hsplit : splitNL (replaceCRLF (jsStr "1. hello")) = [jsStr "1. hello"] := by
    decide
  have hpl : parseListItem (trimJ (jsStr "1. hello"))
      = some (jsStr "1.", jsStr "hello") := by decide
  have hf : ∀ r ∈ splitNL (replaceCRLF (jsStr "1. hello")),
      lineFits (fun _ => 10) 500 r := by
    intro r hr
    rw [hsplit] at hr
    simp at hr
    subst hr
    unfold lineFits
    rw [hpl]
    refine ⟨by decide, ?_⟩
    intro u v
    have hm : measureW (fun _ => 10) (jsStr "1.") = 20 := by decide
    rw [hm]
    norm_num
  exact c2_wrapped_width_within_budget (fun _ => 10) (jsStr "1. hello") 500 hf
    (LineItem.textLine (jsStr "1.") (some 1) 30 (jsStr "hello")) (by decide)
    (jsStr "1.") (some 1) 30 (jsStr "hello") rfl

lemma matchNumericMarker_ne_nil {l np r2 : JStr}
    (h : matchNumericMarker l = some (np, r2)) : l.isEmpty = false := by
  cases l with
  | nil => simp [matchNumericMarker] at h
  | cons a t => rfl

/-- C9: parsing the list line `🔸1）先做这一步` yields marker `1）` and
content `先做这一步`; and in general, whenever the marker alternation
matches a non-enumeration marker (a decorative glyph or bullet) and the
remaining content itself starts with a numeric enumeration prefix that is
followed by further content, `parseListItem` returns that numeric prefix
as the marker with the prefix removed from the content. -/
theorem c9_numeric_marker_precedence :
    parseListItem (jsStr "🔸1）先做这一步")
      = some (jsStr "1）", jsStr "先做这一步")
    ∧ ∀ line m0 rest np r2 : JStr,
        listAltSplit (trimStartJ line) = some (m0, rest) →
        isNumericMarker (trimJ m0) = false →
        (trimJ m0).isEmpty = false →
        matchNumericMarker (trimJ rest) = some (np, r2) →
        r2.isEmpty = false →
        (trimJ r2).isEmpty = false →
        parseListItem line = some (np, trimJ r2) := by
  refine ⟨by decide, ?_⟩
  intro line m0 rest np r2 hsplit hnum hm0 hmatch hr2 htr2
  have hcne : (trimJ rest).isEmpty = false := matchNumericMarker_ne_nil hmatch
  unfold parseListItem
  rw [hsplit]
  dsimp only
  rw [if_neg (by simp [hm0, hcne])]
  simp only [hnum, Bool.false_eq_true, if_false, hmatch, hr2]
  rw [if_neg (by simp [htr2])]

/-- Witness for C9's general rule at the concrete line `🔸1）先做这一步`
(decorative glyph `🔸`, numeric prefix `1）`). -/
theorem c9_numeric_marker_precedence_witness :
    parseListItem (jsStr "🔸1）先做这一步")
      = some (jsStr "1）", trimJ (jsStr "先做这一步")) :=
  c9_numeric_marker_precedence.2 (jsStr "🔸1）先做这一步")
    (jsStr "🔸") (jsStr "1）先做这一步") (jsStr "1）") (jsStr "先做这一步")
    (by decide) (by decide) (by decide) (by decide) (by decide) (by decide)

/-! ## Text structure parser (visual-generator.js lines 513–696)

`extractHashtags` strips `#tag` tokens; `parseContent` resolves kicker,
title (explicit `标题：`/`Title:` prefix, first-line fallback, generated
fallback), body, and tags; `cleanTitleText` applies the ordered cleaning
replaces; `generateTitle` derives a title from the first clause. -/

/-- The hashtag character class `[A-Za-z0-9_一-鿿]`. -/
def isTagUnit (u : Nat) : Bool :=
  isLatinUnit u || u = 95 || (0x4E00 ≤ u && u ≤ 0x9FFF)

/-- The code-unit loop of the hashtag scan `/#([A-Za-z0-9_一-鿿]+)/g`:
the state is `none` outside a candidate match and `some run` (collected
tag units, reversed) right after a `#`; a `#` with no following class
character stays in the text, exactly like the JS global regex. -/
def hashtagScanAux : JStr → Option JStr → JStr × List JStr
  | [], none => ([], [])
  | [], some run => if run.isEmpty then ([35], []) else ([], [run.reverse])
  | u :: rest, none =>
    if u = 35 then hashtagScanAux rest (some [])
    else
      let p := hashtagScanAux rest none
      (u :: p.1, p.2)
  | u :: rest, some run =>
    if isTagUnit u then hashtagScanAux rest (some (u :: run))
    else
      let pre : JStr := if run.isEmpty then [35] else []
      let tg : List JStr := if run.isEmpty then [] else [run.reverse]
      if u = 35 then
        let p := hashtagScanAux rest (some [])
        (pre ++ p.1, tg ++ p.2)
      else
        let p := hashtagScanAux rest none
        (pre ++ u :: p.1, tg ++ p.2)

/-- The global scan of `/#([A-Za-z0-9_一-鿿]+)/g`: returns the text
with matches removed and the captured tags in order. -/
def hashtagScan (l : JStr) : JStr × List JStr := hashtagScanAux l none

/-- Pending space/tab run of `collapseWs`: the first unit and whether the
run has at least two units. -/
def emitWsRun (st : Option (Nat × Bool)) : JStr :=
  match st with
  | none => []
  | some (f, more) => if more then [32] else [f]

/-- The loop of `replace(/[ \t]{2,}/g, ' ')`: a run of two or more
spaces/tabs becomes one space; a single space or tab is kept as it is. -/
def collapseWsAux : JStr → Option (Nat × Bool) → JStr
  | [], st => emitWsRun st
  | u :: rest, st =>
    if u = 32 || u = 9 then
      match st with
      | none => collapseWsAux rest (some (u, false))
      | some (f, _) => collapseWsAux rest (some (f, true))
    else emitWsRun st ++ u :: collapseWsAux rest none

/-- `replace(/[ \t]{2,}/g, ' ')`. -/
def collapseWs (l : JStr) : JStr := collapseWsAux l none

/-- Emit a pending newline run for `collapseNL` (`c` is capped at 3). -/
def emitNLRun (c : Nat) : JStr :=
  if c = 0 then [] else if c = 1 then [10] else [10, 10]

/-- The loop of `replace(/\n{3,}/g, '\n\n')`. -/
def collapseNLAux : JStr → Nat → JStr
  | [], c => emitNLRun c
  | u :: rest, c =>
    if u = 10 then collapseNLAux rest (min (c + 1) 3)
    else emitNLRun c ++ u :: collapseNLAux rest 0

/-- `replace(/\n{3,}/g, '\n\n')`. -/
def collapseNL (l : JStr) : JStr := collapseNLAux l 0

/-- `extractHashtags(text)`. -/
def extractHashtags (text : JStr) : JStr × List JStr :=
  let p := hashtagScan text
  (trimJ (collapseNL (collapseWs p.1)), p.2)

/-- `stripLeadingMarkers` inside `parseContent`:
`replace(/^\s*(?:(?:✅|…|→)|[-*•·])\s*/, '')` — one decorative glyph or
bullet after optional whitespace; if nothing matches the line is returned
unchanged (leading whitespace included). -/
def stripLeadingMarkers (l : JStr) : JStr :=
  let rest := trimStartJ l
  match decoMarkers.find? (fun m => m.isPrefixOf rest) with
  | some m => trimStartJ (rest.drop m.length)
  | none =>
    match rest with
    | u :: r => if bulletUnits.contains u then trimStartJ r else l
    | [] => l

/-- Match the prefix `^\s*(?:标题|Title)\s*[:：]\s*` (case-insensitive on
`Title`), returning the remainder after it. -/
def matchTitleTag (l : JStr) : Option JStr :=
  let r := trimStartJ l
  let afterName : Option JStr :=
    if (jsStr "标题").isPrefixOf r then some (r.drop 2)
    else
      match r with
      | t :: i :: t2 :: l2 :: e :: rest =>
        if (t = 84 ∨ t = 116) ∧ (i = 73 ∨ i = 105) ∧ (t2 = 84 ∨ t2 = 116)
            ∧ (l2 = 76 ∨ l2 = 108) ∧ (e = 69 ∨ e = 101)
        then some rest else none
      | _ => none
  match afterName with
  | some rest =>
    match trimStartJ rest with
    | c :: rest2 =>
      if c = 58 ∨ c = 0xFF1A then some (trimStartJ rest2) else none
    | [] => none
  | none => none

/-- The title-line regex `^\s*(?:标题|Title)\s*[:：]\s*(.+?)\s*$` combined
with the loop's `m && m[1] && m[1].trim()` guard: yields the trimmed
remainder after the colon when it is non-blank. -/
def titleMatch (l : JStr) : Option JStr :=
  match matchTitleTag l with
  | some rem =>
    let t := trimEndJ rem
    if t.isEmpty then none else some t
  | none => none

/-- `replace(/^(?:✅|…|→|[-*•·])\s*/, '')` (no leading `\s*` here). -/
def stripMarkerNoWs (l : JStr) : JStr :=
  match decoMarkers.find? (fun m => m.isPrefixOf l) with
  | some m => trimStartJ (l.drop m.length)
  | none =>
    match l with
    | u :: r => if bulletUnits.contains u then trimStartJ r else l
    | [] => l

/-- `replace(/^\s*(?:标题|Title)\s*[:：]\s*/i, '')`. -/
def stripTitleTagOnce (l : JStr) : JStr :=
  match matchTitleTag l with
  | some rem => rem
  | none => l

/-- `replace(/\.\.\.$/, '')`. -/
def stripDots (l : JStr) : JStr :=
  if (jsStr "...").isSuffixOf l then l.dropLast.dropLast.dropLast else l

/-- `replace(/…$/, '')`. -/
def stripHellip (l : JStr) : JStr :=
  if l.getLast? = some 0x2026 then l.dropLast else l

/-- `replace(/^#{1,6}\s+/, '')`. -/
def stripMdHashes (l : JStr) : JStr :=
  let run := l.takeWhile (fun v => v = 35)
  if 1 ≤ run.length ∧ run.length ≤ 6
      ∧ (match l.drop run.length with
         | u :: _ => isWsUnit u
         | [] => false) = true then
    trimStartJ (l.drop run.length)
  else l

/-- `replace(/^[（\(][一二三四五六七八九十\d]+[）\)]\s*/, '')`. -/
def stripParenEnum (l : JStr) : JStr :=
  match l with
  | u :: rest =>
    if u = 0xFF08 ∨ u = 40 then
      let run := rest.takeWhile (fun v => cjkNumUnits.contains v || isDigitU v)
      if run.isEmpty then l
      else
        match rest.drop run.length with
        | v :: r2 => if v = 0xFF09 ∨ v = 41 then trimStartJ r2 else l
        | [] => l
    else l
  | [] => l

/-- `replace(/^\d{1,2}[\.\)、\)）]\s*/, '')`. -/
def stripNumEnum (l : JStr) : JStr :=
  match l with
  | a :: rest =>
    if isDigitU a then
      match rest with
      | b :: rest2 =>
        if isDigitU b then
          match rest2 with
          | c :: rest3 =>
            if numPunctUnits.contains c then trimStartJ rest3 else l
          | [] => l
        else if numPunctUnits.contains b then trimStartJ rest2 else l
      | [] => l
    else l
  | [] => l

/-- `replace(/^[一二三四五六七八九十]+[\.\、]\s*/, '')`. -/
def stripCjkEnum (l : JStr) : JStr :=
  let run := l.takeWhile (fun v => cjkNumUnits.contains v)
  if run.isEmpty then l
  else
    match l.drop run.length with
    | v :: r2 => if v = 46 ∨ v = 0x3001 then trimStartJ r2 else l
    | [] => l

/-- `replace(/[：:]$/, '')`. -/
def stripTrailColon (l : JStr) : JStr :=
  if l.getLast? = some 58 ∨ l.getLast? = some 0xFF1A then l.dropLast else l

/-- `cleanTitleText(text)`: trim, then the ordered replaces, then trim. -/
def cleanTitleText (text : JStr) : JStr :=
  let title := trimJ text
  if title.isEmpty then []
  else
    trimJ (stripTrailColon (stripCjkEnum (stripNumEnum (stripParenEnum
      (stripMdHashes (stripHellip (stripDots
        (stripTitleTagOnce (stripMarkerNoWs title)))))))))

/-- The loop of `replace(/\s+/g, ' ')`: the flag records a pending
whitespace run. -/
def collapseAllWsAux : JStr → Bool → JStr
  | [], pending => if pending then [32] else []
  | u :: rest, pending =>
    if isWsUnit u then collapseAllWsAux rest true
    else (if pending then [32] else []) ++ u :: collapseAllWsAux rest false

/-- `replace(/\s+/g, ' ')`. -/
def collapseAllWs (l : JStr) : JStr := collapseAllWsAux l false

/-- The sentence separators `[。！？\n]` of `generateTitle`. -/
def sentenceSplitUnits : JStr := jsStr "。！？" ++ [10]

/-- `generateTitle(text)`: first clause of the whitespace-collapsed text,
truncated to 20 units with an ellipsis, with `内容摘要` as fallback. -/
def generateTitle (text : JStr) : JStr :=
  let safe := trimJ (collapseAllWs text)
  if safe.isEmpty then jsStr "内容摘要"
  else
    let first := trimJ (safe.takeWhile (fun u => !(sentenceSplitUnits.contains u)))
    if first.length ≤ 20 then
      (if first.isEmpty then jsStr "内容摘要" else first)
    else first.take 20 ++ jsStr "..."

/-- The kicker label alternatives, in the regex's alternation order. -/
def kickerAlts : List JStr :=
  [jsStr "适合", jsStr "适用", jsStr "适用人群", jsStr "人群", jsStr "对象",
   jsStr "场景", jsStr "适用于"]

/-- Try one alternative of
`^(适合|适用|适用人群|人群|对象|场景|适用于)\s*[:：]\s*(.+)$`: the label,
optional whitespace, a colon, and a non-empty remainder (whose trim is the
captured kicker text). -/
def kickerTry (p : JStr) (nc : JStr) : Option JStr :=
  if p.isPrefixOf nc then
    match trimStartJ (nc.drop p.length) with
    | c :: r =>
      if (c = 58 ∨ c = 0xFF1A) ∧ ¬r.isEmpty then some (trimJ r) else none
    | [] => none
  else none

/-- The kicker regex with ordered alternation and backtracking. -/
def kickerMatch (nc : JStr) : Option (JStr × JStr) :=
  kickerAlts.findSome? (fun p => (kickerTry p nc).map (fun t => (p, t)))

/-- The result of `parseContent`. -/
structure ParsedContent where
  kicker : JStr
  title : JStr
  body : JStr
  tags : List JStr
deriving DecidableEq, Repr

/-- The explicit-title loop: first line whose normalized form matches the
title regex with a non-blank remainder. -/
def findTitleIdx : List JStr → Nat → Option (Nat × JStr)
  | [], _ => none
  | l :: ls, i =>
    match titleMatch (stripLeadingMarkers l) with
    | some t => some (i, t)
    | none => findTitleIdx ls (i + 1)

/-- The explicit-title resolution (`title`, `titleLineIndex` after the
scan loop of `parseContent`). -/
def resolveT1 (lines : List JStr) : JStr × Option Nat :=
  match findTitleIdx lines 0 with
  | some p => (cleanTitleText p.2, some p.1)
  | none => ([], none)

/-- The title after the first-line fallback (runs when the explicit title
is absent or cleaned to empty; the first non-empty line must not look like
a list item and must be at most 28 units long). -/
def resolveT2 (lines : List JStr) (firstNE : Option Nat) : JStr × Option Nat :=
  let t1 := resolveT1 lines
  if t1.1.isEmpty then
    match firstNE with
    | some f =>
      let firstLine := trimJ (lines.getD f [])
      if (parseListItem firstLine).isNone ∧ firstLine.length ≤ 28 then
        (cleanTitleText firstLine, some f)
      else t1
    | none => t1
  else t1

/-- Kicker detection from a short colon-terminated line preceding the
explicit title line. -/
def resolveK1 (lines : List JStr) (firstNE : Option Nat)
    (t2 : JStr × Option Nat) : JStr × Option Nat :=
  if ¬t2.1.isEmpty then
    match firstNE, t2.2 with
    | some f, some ti =>
      if f < ti then
        let firstLine := trimJ (lines.getD f [])
        if (firstLine.getLast? = some 58 ∨ firstLine.getLast? = some 0xFF1A)
            ∧ firstLine.length ≤ 20 then
          (trimJ (stripTrailColon (stripLeadingMarkers firstLine)), some f)
        else ([], none)
      else ([], none)
    | _, _ => ([], none)
  else ([], none)

/-- `lines.filter((_, idx) => idx !== titleLineIndex && idx !== kickerLineIndex)`. -/
def bodyLinesOf (lines : List JStr) (tIdx kIdx : Option Nat) : List JStr :=
  ((List.range lines.length).zip lines).filterMap
    (fun p => if some p.1 = tIdx ∨ some p.1 = kIdx then none else some p.2)

/-- Kicker detection from a `适合：…`-style label at the start of the body
(runs when no kicker string was found yet); the matched body line is
spliced out. -/
def resolveKB (k1 : JStr × Option Nat) (bodyLines : List JStr) :
    JStr × List JStr :=
  if k1.1.isEmpty then
    match bodyLines.findIdx? (fun l => !(trimJ l).isEmpty) with
    | some j =>
      let candidate := trimJ (bodyLines.getD j [])
      let nc := stripLeadingMarkers candidate
      match kickerMatch nc with
      | some pt =>
        if nc.length ≤ 40 then
          (pt.1 ++ [0xFF1A] ++ pt.2, bodyLines.eraseIdx j)
        else (k1.1, bodyLines)
      | none => (k1.1, bodyLines)
    | none => (k1.1, bodyLines)
  else (k1.1, bodyLines)

/-- The final title fallback: when no title was resolved (or it cleaned to
empty), generate one from the body (or the tag-stripped text when the body
is empty); if cleaning erases the generated title, keep it uncleaned. -/
def resolveTitle (t2v : JStr) (source : JStr) : JStr :=
  if t2v.isEmpty then
    let g := generateTitle source
    let c := cleanTitleText g
    if c.isEmpty then g else c
  else t2v

/-- `parseContent(rawContent)`: hashtag extraction, explicit/fallback
title resolution, kicker detection (line before the title, or a label
pattern at the start of the body), body assembly. -/
def parseContent (raw : JStr) : ParsedContent :=
  let original := trimJ (replaceCRLF raw)
  if original.isEmpty then ⟨[], jsStr "未提供内容", [], []⟩
  else
    let et := extractHashtags original
    let lines := (splitNL et.1).map trimEndJ
    let firstNE := lines.findIdx? (fun l => !(trimJ l).isEmpty)
    let t2 := resolveT2 lines firstNE
    let k1 := resolveK1 lines firstNE t2
    let kB := resolveKB k1 (bodyLinesOf lines t2.2 k1.2)
    let bodyJ := trimJ (collapseNL (List.intercalate [10] kB.2))
    ⟨kB.1, resolveTitle t2.1 (if bodyJ.isEmpty then et.1 else bodyJ), bodyJ, et.2⟩

lemma ne_nil_isEmpty_false {l : JStr} (h : l ≠ []) : l.isEmpty = false := by
  cases l with
  | nil => exact absurd rfl h
  | cons a t => rfl

lemma generateTitle_ne (t : JStr) : (generateTitle t).isEmpty = false := by
  unfold generateTitle
  dsimp only
  split
  · decide
  · split
    · split
      · decide
      · rename_i h
        exact Bool.eq_false_iff.2 h
    · refine ne_nil_isEmpty_false ?_
      intro heq
      rcases List.append_eq_nil.1 heq with ⟨-, hb⟩
      exact (by decide : jsStr "..." ≠ []) hb

/-- C3: for every content string whose trimmed value is non-empty,
`parseContent(content).title` is a non-empty string, across all resolution
paths — explicit `标题：`/`Title:` prefix, first-line fallback, and the
generated-title fallback (`generateTitle` never returns an empty string,
and a cleaning that erases it falls back to the uncleaned generated
title). -/
lemma resolveTitle_ne (t2v source : JStr) :
    (resolveTitle t2v source).isEmpty = false := by
  unfold resolveTitle
  dsimp only
  split
  · split
    · exact generateTitle_ne _
    · rename_i hc
      exact Bool.eq_false_iff.2 hc
  · rename_i ht
    exact Bool.eq_false_iff.2 ht

theorem c3_title_nonempty (raw : JStr) (h : (trimJ raw).isEmpty = false) :
    (parseContent raw).title.isEmpty = false := by
  unfold parseContent
  dsimp only
  split
  · decide
  · dsimp only
    exact resolveTitle_ne _ _

/-- Witness for C3 at the concrete input `hello`. -/
theorem c3_title_nonempty_witness :
    (trimJ (jsStr "hello")).isEmpty = false
    ∧ (parseContent (jsStr "hello")).title.isEmpty = false :=
  ⟨by decide, c3_title_nonempty (jsStr "hello") (by decide)⟩

/-- Counterexample to C4 as stated: `parseContent` returns its hashtags
raw — on input `#ai #AI` the tags field is `["ai", "AI"]`, two distinct
entries with the same lower-cased key, so the field is not
case-insensitively deduplicated (nor capped: it holds every extracted
hashtag). -/
theorem c4_parse_tags_not_deduped :
    (parseContent (jsStr "#ai #AI")).tags = [jsStr "ai", jsStr "AI"]
    ∧ jsToLower (jsStr "AI") = jsToLower (jsStr "ai")
    ∧ jsStr "AI" ≠ jsStr "ai" :=
  ⟨by decide, by decide, by decide⟩

/-- C4 (amended): `parseContent`'s tags field preserves the first-seen
order of the inline hashtags but is not deduplicated or capped; the
case-insensitive de-duplication, first-seen order and 10-entry cap hold of
the list actually used for rendering, `mergeTags(parsed.tags, customTags)`
(applied by `drawContent`), for every raw content string and external tag
list. -/
theorem c4_merged_tags_spec (raw : JStr) (custom : List JStr) :
    (mergeTags (parseContent raw).tags custom).length ≤ 10
    ∧ ((mergeTags (parseContent raw).tags custom).map jsToLower).Nodup
    ∧ (mergeTags (parseContent raw).tags custom).Sublist
        ((((parseContent raw).tags ++ custom).map cleanTag).filter
          (fun t => !t.isEmpty))
    ∧ mergeTags (parseContent raw).tags custom
        = (dedupByKey [] ((((parseContent raw).tags ++ custom).map cleanTag).filter
            (fun t => !t.isEmpty))).take 10 := by
  have hspec := mergeTags_eq_spec (parseContent raw).tags custom
  refine ⟨?_, ?_, ?_, hspec⟩
  · rw [hspec]
    exact List.length_take_le _ _
  · rw [hspec]
    exact ((dedupByKey_keys_spec _ []).1).sublist
      ((List.take_sublist _ _).map jsToLower)
  · rw [hspec]
    exact (List.take_sublist _ _).trans (dedupByKey_sublist _ [])

end VisualGen
